import Mathlib

/-!
Verification development for the TMDB batch-ingestion pipeline
(`tmdb_realtime_pg.py`): a shallow embedding of its pure data flow and
of its effects on an abstract transactional relational store, a mirror
CSV file, and the remote catalog API (modelled as an oracle), together
with theorems settling the specification's claims.

Modelling conventions:
* Float-valued payload fields (`vote_average`, `popularity`) are carried
  as opaque integers: the pipeline only copies them, never computes.
* The relational store is a list-per-table state with primary-key
  constraints checked at insertion; a duplicate-key insertion is a
  constraint violation that fails the whole commit (the transaction is
  all-or-nothing, as the store layer guarantees).
* `Session.get(Movie, id)` sees both committed rows and rows staged
  earlier in the same call (identity map plus autoflush-before-SELECT),
  so it is modelled as membership in committed-union-staged.
* Appending the same related object repeatedly to the list-valued
  `movie.genres` relationship stages one association INSERT per append;
  the unit of work does not deduplicate, so a repeated pair hits the
  association table's composite primary key at flush time.
* Sleeps and HTTP attempts are recorded in an event trace so that
  timing-shaped claims (retry backoff, rate-limit delay) are statable.
  Durations are in tenths of a second: `sleep 20` is `time.sleep(2)`,
  `sleep 4` is `time.sleep(0.4)`.
-/

/-- One transient item from the catalog API (`results` array element). -/
structure CatalogItem where
  id : Int
  title : Option String
  overview : Option String
  release_date : Option String
  vote_average : Option Int
  vote_count : Option Int
  popularity : Option Int
  genre_ids : List Int
deriving DecidableEq, Repr

/-- A calendar date as produced by `datetime.date`. -/
structure PDate where
  year : Nat
  month : Nat
  day : Nat
deriving DecidableEq, Repr

/-- Gregorian leap-year rule used by `datetime.date`. -/
def isLeap (y : Nat) : Bool :=
  y % 4 == 0 && (y % 100 != 0 || y % 400 == 0)

/-- Number of days in a month, as validated by the `datetime.date` constructor. -/
def daysInMonth (y m : Nat) : Nat :=
  if m = 2 then (if isLeap y then 29 else 28)
  else if m = 4 ∨ m = 6 ∨ m = 9 ∨ m = 11 then 30
  else 31

/-- A (year, month, day) triple accepted by the `datetime.date` constructor
(with the year already bounded to four digits by the format). -/
def validDate (y m d : Nat) : Prop :=
  1 ≤ y ∧ y ≤ 9999 ∧ 1 ≤ m ∧ m ≤ 12 ∧ 1 ≤ d ∧ d ≤ daysInMonth y m

instance (y m d : Nat) : Decidable (validDate y m d) := by
  unfold validDate; infer_instance

/-- Consume one decimal digit character. -/
def parseDigit : List Char → Option (Nat × List Char)
  | c :: rest => if c.isDigit then some (c.toNat - 48, rest) else none
  | [] => none

/-- Consume exactly four decimal digits (strptime `%Y`). -/
def parse4Digits (l : List Char) : Option (Nat × List Char) :=
  match parseDigit l with
  | none => none
  | some (a, l1) =>
    match parseDigit l1 with
    | none => none
    | some (b, l2) =>
      match parseDigit l2 with
      | none => none
      | some (c, l3) =>
        match parseDigit l3 with
        | none => none
        | some (e, l4) => some (1000 * a + 100 * b + 10 * c + e, l4)

/-- Month alternatives of strptime `%m`, in regex alternation order
`1[0-2] | 0[1-9] | [1-9]`; each candidate is (value, remaining input). -/
def monthCands : List Char → List (Nat × List Char)
  | [] => []
  | [c] => if '1' ≤ c ∧ c ≤ '9' then [(c.toNat - 48, [])] else []
  | c :: c2 :: rest2 =>
    (if c = '1' ∧ '0' ≤ c2 ∧ c2 ≤ '2' then [(10 + (c2.toNat - 48), rest2)] else []) ++
    (if c = '0' ∧ '1' ≤ c2 ∧ c2 ≤ '9' then [(c2.toNat - 48, rest2)] else []) ++
    (if '1' ≤ c ∧ c ≤ '9' then [(c.toNat - 48, c2 :: rest2)] else [])

/-- Day alternatives of strptime `%d`, in regex alternation order
`3[01] | [12][0-9] | 0[1-9] | [1-9]`. -/
def dayCands : List Char → List (Nat × List Char)
  | [] => []
  | [c] => if '1' ≤ c ∧ c ≤ '9' then [(c.toNat - 48, [])] else []
  | c :: c2 :: rest2 =>
    (if c = '3' ∧ '0' ≤ c2 ∧ c2 ≤ '1' then [(30 + (c2.toNat - 48), rest2)] else []) ++
    (if ('1' ≤ c ∧ c ≤ '2') ∧ c2.isDigit
     then [(10 * (c.toNat - 48) + (c2.toNat - 48), rest2)] else []) ++
    (if c = '0' ∧ '1' ≤ c2 ∧ c2 ≤ '9' then [(c2.toNat - 48, rest2)] else []) ++
    (if '1' ≤ c ∧ c ≤ '9' then [(c.toNat - 48, c2 :: rest2)] else [])

/-- Return the first candidate on which the continuation succeeds
(regex backtracking). -/
def firstSome : List α → (α → Option β) → Option β
  | [], _ => none
  | a :: as, f =>
    match f a with
    | some b => some b
    | none => firstSome as f

/-- Full-string match of `%Y-%m-%d` (strptime requires the regex match to
cover the whole input). -/
def parseYMDchars (l : List Char) : Option (Nat × Nat × Nat) :=
  match parse4Digits l with
  | none => none
  | some (y, r1) =>
    match r1 with
    | '-' :: r2 =>
      firstSome (monthCands r2) fun mc =>
        match mc.2 with
        | '-' :: r4 =>
          firstSome (dayCands r4) fun dc =>
            if dc.2 = [] then some (y, mc.1, dc.1) else none
        | _ => none
    | _ => none

/-- Model of `parse_date_safe`: `datetime.strptime(s, "%Y-%m-%d").date()` under a bare
`except` returning `None`.  A missing field (`None` argument) raises
`TypeError`, also caught.  After the format match, the `date` constructor
rejects year 0 and days beyond the month length. -/
def parse_date_safe : Option String → Option PDate
  | none => none
  | some s =>
    match parseYMDchars s.data with
    | none => none
    | some (y, m, d) =>
      if 1 ≤ y ∧ d ≤ daysInMonth y m then some ⟨y, m, d⟩ else none

/-- The character for a single decimal digit. -/
def digitChar (n : Nat) : Char := Char.ofNat (48 + n)

/-- Two-digit zero-padded rendering. -/
def pad2 (n : Nat) : List Char := [digitChar (n / 10), digitChar (n % 10)]

/-- Four-digit zero-padded rendering. -/
def pad4 (n : Nat) : List Char :=
  [digitChar (n / 1000), digitChar (n / 100 % 10), digitChar (n / 10 % 10),
   digitChar (n % 10)]

/-- The canonical well-formed `YYYY-MM-DD` rendering of a date. -/
def formatDate (y m d : Nat) : String :=
  ⟨pad4 y ++ '-' :: (pad2 m ++ '-' :: pad2 d)⟩

/-! ## Mirror Writer (`save_to_csv`) -/

/-- One data row of the CSV mirror, holding the raw field values the code
writes (the release date as given, the genre-id list comma-joined). -/
structure CsvItemRow where
  id : Int
  title : Option String
  overview : Option String
  release_date : Option String
  vote_average : Option Int
  vote_count : Option Int
  popularity : Option Int
  genre_ids : String
deriving DecidableEq, Repr

/-- A line of the mirror file: the fixed 8-column header or a data row. -/
inductive CsvRow where
  | header
  | item (r : CsvItemRow)
deriving DecidableEq, Repr

/-- Whether a mirror line is the header line. -/
def CsvRow.isHeader : CsvRow → Bool
  | .header => true
  | .item _ => false

/-- The data row `save_to_csv` writes for one item. -/
def csvRowOf (m : CatalogItem) : CsvItemRow :=
  { id := m.id
    title := m.title
    overview := m.overview
    release_date := m.release_date
    vote_average := m.vote_average
    vote_count := m.vote_count
    popularity := m.popularity
    genre_ids := String.intercalate "," (m.genre_ids.map toString) }

/-- Model of `save_to_csv`: checks `os.path.exists`, opens the file in append mode
(creating it when absent), writes the header only when the file did not
previously exist, then one row per item.  The state of the file is
`none` when it does not exist, otherwise its list of lines; the call
returns the file's new contents (the file exists afterwards). -/
def save_to_csv (file : Option (List CsvRow)) (movies : List CatalogItem) :
    List CsvRow :=
  let base := match file with
    | none => [CsvRow.header]
    | some c => c
  base ++ movies.map (fun m => CsvRow.item (csvRowOf m))

/-! ## Relational store and Upsert Engine (`save_batch_to_db`) -/

/-- A committed row of the `movies` table. -/
structure MovieRow where
  id : Int
  title : Option String
  overview : Option String
  release_date : Option PDate
  vote_average : Option Int
  vote_count : Option Int
  popularity : Option Int
deriving DecidableEq, Repr

/-- A committed row of the `genres` table. -/
structure GenreRow where
  genre_id : Int
  genre_name : String
deriving DecidableEq, Repr

/-- The relational store: three tables, insertion-ordered. -/
structure DB where
  movies : List MovieRow
  genres : List GenreRow
  assocs : List (Int × Int)
deriving DecidableEq, Repr

/-- The empty store. -/
def DB.empty : DB := ⟨[], [], []⟩

/-- Persistence failure surfaced by the store layer. -/
inductive DBError where
  | uniqueViolation
deriving DecidableEq, Repr

/-- Insert rows one by one into a table, failing on a primary-key
collision (against existing rows or a previously inserted row). -/
def insertRows (key : ρ → κ) [DecidableEq κ] (tbl : List ρ) :
    List ρ → Except DBError (List ρ)
  | [] => Except.ok tbl
  | r :: rs =>
    if key r ∈ tbl.map key then Except.error DBError.uniqueViolation
    else insertRows key (tbl ++ [r]) rs

/-- The `Movie(...)` constructor call of `save_batch_to_db` (scalar copy,
date normalized through `parse_date_safe`). -/
def buildMovie (m : CatalogItem) : MovieRow :=
  { id := m.id
    title := m.title
    overview := m.overview
    release_date := parse_date_safe m.release_date
    vote_average := m.vote_average
    vote_count := m.vote_count
    popularity := m.popularity }

/-- In-session staging state of one `save_batch_to_db` call: the store as
committed at the start, the new rows staged since, and the genre cache
(ids of every `Genre` object known to the session). -/
structure Stage where
  db : DB
  newMovies : List MovieRow
  newGenres : List GenreRow
  newAssocs : List (Int × Int)
  cache : List Int
deriving Repr

/-- Truthiness of `session.get(Movie, id)`: the id is committed, or it was
staged earlier in this call (identity map plus autoflush before the
SELECT that `get` issues for a key not in the map). -/
def movieSeen (st : Stage) (i : Int) : Prop :=
  i ∈ st.db.movies.map (fun r => r.id) ∨ i ∈ st.newMovies.map (fun r => r.id)

instance (st : Stage) (i : Int) : Decidable (movieSeen st i) := by
  unfold movieSeen; infer_instance

/-- The inner genre loop body: resolve `gid` through the cache, creating
and staging a `Genre {gid}` row on a miss, then append the association
(one `movie.genres.append` per occurrence, duplicates included). -/
def addGenre (movieId : Int) (st : Stage) (gid : Int) : Stage :=
  let st1 :=
    if gid ∈ st.cache then st
    else
      { st with
        cache := st.cache ++ [gid]
        newGenres := st.newGenres ++ [⟨gid, "Genre " ++ toString gid⟩] }
  { st1 with newAssocs := st1.newAssocs ++ [(movieId, gid)] }

/-- The per-item body of the `for m in movies` loop: skip a seen id,
otherwise stage the genres, associations and the new movie row. -/
def processItem (st : Stage) (m : CatalogItem) : Stage :=
  if movieSeen st m.id then st
  else
    let st1 := m.genre_ids.foldl (addGenre m.id) st
    { st1 with newMovies := st1.newMovies ++ [buildMovie m] }

/-- The staging phase of `save_batch_to_db` on a whole batch, starting
from a cache preloaded with every committed genre id. -/
def stageBatch (db : DB) (movies : List CatalogItem) : Stage :=
  movies.foldl processItem
    { db := db, newMovies := [], newGenres := [], newAssocs := []
      cache := db.genres.map (fun g => g.genre_id) }

/-- Model of `session.commit()`: apply every staged row to the store in one
transaction; any primary-key violation fails the whole commit and
leaves the store unchanged. -/
def commitStage (db : DB) (st : Stage) : Except DBError DB :=
  match insertRows (fun r => r.id) db.movies st.newMovies with
  | Except.error e => Except.error e
  | Except.ok ms =>
    match insertRows (fun g => g.genre_id) db.genres st.newGenres with
    | Except.error e => Except.error e
    | Except.ok gs =>
      match insertRows (fun p => p) db.assocs st.newAssocs with
      | Except.error e => Except.error e
      | Except.ok as => Except.ok ⟨ms, gs, as⟩

/-- Model of `save_batch_to_db`: stage the batch, then commit. -/
def save_batch_to_db (db : DB) (movies : List CatalogItem) :
    Except DBError DB :=
  commitStage db (stageBatch db movies)

/-! ## Fetcher and Batch Collector (`fetch_movies_batch`) -/

/-- Result of one HTTP attempt on one page: a 200 response with its
parsed `results` array, or a transient failure (non-200 raised as an
exception, network error, timeout). -/
inductive Attempt where
  | ok (results : List CatalogItem)
  | fail
deriving Repr

/-- The remote catalog as an oracle: page number and 0-based attempt
index determine the attempt's outcome. -/
def Oracle : Type := Nat → Nat → Attempt

/-- Observable events of a run: an HTTP attempt on a page, or a
`time.sleep` (duration in tenths of a second: 20 is the retry backoff
`sleep(2)`, 4 is the rate-limit `sleep(0.4)`). -/
inductive Ev where
  | attempt (page : Nat) (i : Nat)
  | sleep (tenths : Nat)
deriving DecidableEq, Repr

/-- Outcome of the per-page retry loop, as seen by the page iteration. -/
inductive PageOutcome where
  | items (l : List CatalogItem)
  | empty
  | skipped
deriving DecidableEq, Repr

/-- The `while retries > 0` loop for one page, with `r` retries left and
`i` the 0-based attempt index: an empty `results` returns immediately
(no sleep), a non-empty `results` sleeps 0.4s and breaks, a failure
sleeps 2s and retries; exhausted retries fall through to the skip. -/
def fetchPageFrom (net : Oracle) (page : Nat) : Nat → Nat → List Ev × PageOutcome
  | 0, _ => ([], PageOutcome.skipped)
  | r + 1, i =>
    match net page i with
    | Attempt.ok [] => ([Ev.attempt page i], PageOutcome.empty)
    | Attempt.ok results => ([Ev.attempt page i, Ev.sleep 4], PageOutcome.items results)
    | Attempt.fail =>
      let rest := fetchPageFrom net page r (i + 1)
      (Ev.attempt page i :: Ev.sleep 20 :: rest.1, rest.2)

/-- One page's fetch: `retries = 3` attempts at most. -/
def fetchPage (net : Oracle) (page : Nat) : List Ev × PageOutcome :=
  fetchPageFrom net page 3 0

/-- The `for page in range(start_page, start_page + pages_per_batch)`
loop: an empty page returns the accumulator at once; items extend it;
a skipped page contributes nothing and iteration continues. -/
def fetchBatchAux (net : Oracle) : Nat → List CatalogItem → Nat →
    List Ev × List CatalogItem
  | 0, acc, _ => ([], acc)
  | n + 1, acc, page =>
    match fetchPage net page with
    | (t, PageOutcome.empty) => (t, acc)
    | (t, PageOutcome.items l) =>
      let rest := fetchBatchAux net n (acc ++ l) (page + 1)
      (t ++ rest.1, rest.2)
    | (t, PageOutcome.skipped) =>
      let rest := fetchBatchAux net n acc (page + 1)
      (t ++ rest.1, rest.2)

/-- Model of `fetch_movies_batch(start_page, pages_per_batch)`, returning the
event trace together with the collected batch. -/
def fetch_movies_batch (net : Oracle) (start_page pages_per_batch : Nat) :
    List Ev × List CatalogItem :=
  fetchBatchAux net pages_per_batch [] start_page

/-! ## Pipeline Driver (`main`) -/

/-- The externally visible state a run acts on: the relational store and
the mirror file (`none` while the file does not exist). -/
structure RunState where
  db : DB
  csv : Option (List CsvRow)
deriving DecidableEq, Repr

/-- The `while page <= MAX_PAGES` loop of `main` (`MAX_PAGES = 100`,
`PAGES_PER_BATCH = 5`): fetch a batch; an empty batch breaks; otherwise
mirror it, persist it (an uncaught persistence failure aborts the run,
surfaced in the third component), and advance the cursor by 5.  The
first argument is structural fuel; the cursor strictly increases, so
any fuel above 21 is never exhausted from the initial state. -/
def mainLoop (net : Oracle) : Nat → Nat → RunState →
    List Ev × RunState × Option DBError
  | 0, _, s => ([], s, none)
  | fuel + 1, page, s =>
    if page ≤ 100 then
      let fb := fetch_movies_batch net page 5
      if fb.2 = [] then (fb.1, s, none)
      else
        let csv1 := save_to_csv s.csv fb.2
        match save_batch_to_db s.db fb.2 with
        | Except.error e => (fb.1, ⟨s.db, some csv1⟩, some e)
        | Except.ok db1 =>
          let rest := mainLoop net fuel (page + 5) ⟨db1, some csv1⟩
          (fb.1 ++ rest.1, rest.2)
    else ([], s, none)

/-- The source's `main()` (the name `main` is reserved in Lean): run the
pipeline from page 1 on an empty store and a nonexistent mirror file. -/
def mainRun (net : Oracle) : List Ev × RunState × Option DBError :=
  mainLoop net 101 1 ⟨DB.empty, none⟩

/-! ## Auxiliary definitions for the theorems -/

/-- The committed movie-id column of the store. -/
def dbMovieIds (db : DB) : List Int := db.movies.map (fun r => r.id)

/-- The mirror file after a sequence of `save_to_csv` calls starting from
a nonexistent file. -/
def mirrorRun (bs : List (List CatalogItem)) : Option (List CsvRow) :=
  bs.foldl (fun f b => some (save_to_csv f b)) none

/-- A minimal catalog item with no genre ids, for concrete scenarios. -/
def itemNoGenres : CatalogItem := ⟨100, none, none, none, none, none, none, []⟩

/-- A catalog item whose genre-id list repeats an id. -/
def itemDupGenres : CatalogItem := ⟨7, none, none, none, none, none, none, [1, 1, 2]⟩

/-- Catalog oracle: page 1 holds one item, every other page is empty. -/
def netOneItem : Oracle :=
  fun p _ => if p = 1 then Attempt.ok [itemNoGenres] else Attempt.ok []

/-- Catalog oracle: page 1 holds the duplicate-genre item, every other
page is empty. -/
def netDupItem : Oracle :=
  fun p _ => if p = 1 then Attempt.ok [itemDupGenres] else Attempt.ok []

/-- Catalog oracle on which every attempt fails. -/
def netAllFail : Oracle := fun _ _ => Attempt.fail

/-! ## Date parsing lemmas -/

theorem parseDigit_digitChar (k : Nat) (hk : k ≤ 9) (rest : List Char) :
    parseDigit (digitChar k :: rest) = some (k, rest) := by
  interval_cases k <;> rfl

theorem parse4Digits_pad4 (y : Nat) (hy : y ≤ 9999) (rest : List Char) :
    parse4Digits (pad4 y ++ rest) = some (y, rest) := by
  have h1 : y / 1000 ≤ 9 := by omega
  have h2 : y / 100 % 10 ≤ 9 := by omega
  have h3 : y / 10 % 10 ≤ 9 := by omega
  have h4 : y % 10 ≤ 9 := by omega
  simp only [pad4, List.cons_append, List.nil_append, parse4Digits,
    parseDigit_digitChar _ h1, parseDigit_digitChar _ h2,
    parseDigit_digitChar _ h3, parseDigit_digitChar _ h4]
  have e1 : y / 10 / 10 = y / 100 := by rw [Nat.div_div_eq_div_mul]
  have e2 : y / 100 / 10 = y / 1000 := by rw [Nat.div_div_eq_div_mul]
  congr 1
  simp only [Prod.mk.injEq]
  exact ⟨by omega, trivial⟩

theorem firstSome_monthCands {β : Type} (m : Nat) (h1 : 1 ≤ m) (h2 : m ≤ 12)
    (rest : List Char) (f : Nat × List Char → Option β) (v : β)
    (hf : f (m, rest) = some v) :
    firstSome (monthCands (pad2 m ++ rest)) f = some v := by
  interval_cases m <;>
    simp only [pad2, digitChar, Nat.reduceDiv, Nat.reduceMod, Nat.reduceAdd,
      List.cons_append, List.nil_append] <;>
    simp [monthCands, firstSome, hf]

theorem firstSome_dayCands {β : Type} (d : Nat) (h1 : 1 ≤ d) (h2 : d ≤ 31)
    (rest : List Char) (f : Nat × List Char → Option β) (v : β)
    (hf : f (d, rest) = some v) :
    firstSome (dayCands (pad2 d ++ rest)) f = some v := by
  interval_cases d <;>
    simp only [pad2, digitChar, Nat.reduceDiv, Nat.reduceMod, Nat.reduceAdd,
      List.cons_append, List.nil_append] <;>
    simp [dayCands, firstSome, hf]

theorem daysInMonth_le_31 (y m : Nat) : daysInMonth y m ≤ 31 := by
  unfold daysInMonth
  split
  · split <;> omega
  · split <;> omega

theorem parseYMDchars_format (y m d : Nat) (hv : validDate y m d) :
    parseYMDchars (pad4 y ++ '-' :: (pad2 m ++ '-' :: pad2 d)) = some (y, m, d) := by
  obtain ⟨hy1, hy2, hm1, hm2, hd1, hd2⟩ := hv
  have hd31 : d ≤ 31 := le_trans hd2 (daysInMonth_le_31 y m)
  unfold parseYMDchars
  rw [parse4Digits_pad4 y hy2]
  refine firstSome_monthCands m hm1 hm2 _ _ _ ?_
  show firstSome (dayCands (pad2 d)) _ = _
  rw [← List.append_nil (pad2 d)]
  exact firstSome_dayCands d hd1 hd31 [] _ _ rfl

/-- C7: the stored release date of every persisted record is exactly
`parse_date_safe` of the item's raw field, a missing field is stored as
null, and every well-formed `YYYY-MM-DD` string is stored as the parsed
calendar date.  `parse_date_safe` is a total function of the embedding,
so date handling never surfaces an error out of the Upsert Engine. -/
theorem C7_date_normalization :
    (∀ mv : CatalogItem, (buildMovie mv).release_date = parse_date_safe mv.release_date) ∧
    parse_date_safe none = none ∧
    (∀ y m d : Nat, validDate y m d →
      parse_date_safe (some (formatDate y m d)) = some ⟨y, m, d⟩) := by
  refine ⟨fun mv => rfl, rfl, fun y m d hv => ?_⟩
  have hp := parseYMDchars_format y m d hv
  show (match parseYMDchars (pad4 y ++ '-' :: (pad2 m ++ '-' :: pad2 d)) with
        | none => none
        | some (y, m, d) =>
          if 1 ≤ y ∧ d ≤ daysInMonth y m then some (PDate.mk y m d) else none) =
      some (PDate.mk y m d)
  rw [hp]
  exact if_pos ⟨hv.1, hv.2.2.2.2.2⟩

/-- Witness for C7 at the concrete date 2024-02-29 (a leap day). -/
theorem C7_date_normalization_witness :
    parse_date_safe (some (formatDate 2024 2 29)) = some ⟨2024, 2, 29⟩ ∧
    parse_date_safe none = none :=
  ⟨C7_date_normalization.2.2 2024 2 29 (by decide), C7_date_normalization.2.1⟩

/-! ## Mirror Writer theorems -/

theorem countP_csv_items (b : List CatalogItem) :
    (b.map (fun m => CsvRow.item (csvRowOf m))).countP CsvRow.isHeader = 0 := by
  induction b with
  | nil => rfl
  | cons a t ih => simp [List.countP_cons, CsvRow.isHeader, ih]

theorem mirror_foldl_ex (rest : List (List CatalogItem)) :
    ∀ c : List CsvRow,
      ∃ d, rest.foldl (fun f b => some (save_to_csv f b)) (some c) = some (c ++ d) ∧
        d.countP CsvRow.isHeader = 0 := by
  induction rest with
  | nil => intro c; exact ⟨[], by simp⟩
  | cons b t ih =>
    intro c
    obtain ⟨d, hd, hcount⟩ := ih (save_to_csv (some c) b)
    refine ⟨b.map (fun m => CsvRow.item (csvRowOf m)) ++ d, ?_, ?_⟩
    · simpa [save_to_csv, List.append_assoc] using hd
    · simp [List.countP_append, countP_csv_items, hcount, CsvRow.isHeader]

/-- C8: starting from a nonexistent destination, any nonempty sequence of
append calls produces a file whose header line appears exactly once and
first — written by the call that created the file — while every append
to an existing file adds data rows only, never a header. -/
theorem C8_header_once :
    (∀ (bs : List (List CatalogItem)) (content : List CsvRow),
      bs ≠ [] → mirrorRun bs = some content →
      content.countP CsvRow.isHeader = 1 ∧ content.head? = some CsvRow.header) ∧
    (∀ (c : List CsvRow) (b : List CatalogItem),
      save_to_csv (some c) b = c ++ b.map (fun m => CsvRow.item (csvRowOf m))) := by
  constructor
  · intro bs content hne hrun
    match bs with
    | [] => exact absurd rfl hne
    | b :: t =>
      obtain ⟨d, hd, hcount⟩ := mirror_foldl_ex t (save_to_csv none b)
      have hrun' : t.foldl (fun f b => some (save_to_csv f b))
          (some (save_to_csv none b)) = some content := hrun
      rw [hd] at hrun'
      have hcontent : content = save_to_csv none b ++ d := by
        injection hrun' with h; exact h.symm
      subst hcontent
      constructor
      · simp [save_to_csv, List.countP_append, List.countP_cons,
          countP_csv_items, hcount, CsvRow.isHeader]
      · simp [save_to_csv]
  · intro c b
    rfl

/-- Witness for C8 on two one-item batches appended from scratch. -/
theorem C8_header_once_witness :
    ([CsvRow.header, CsvRow.item (csvRowOf itemNoGenres),
        CsvRow.item (csvRowOf itemNoGenres)].countP CsvRow.isHeader = 1 ∧
      [CsvRow.header, CsvRow.item (csvRowOf itemNoGenres),
        CsvRow.item (csvRowOf itemNoGenres)].head? = some CsvRow.header) :=
  C8_header_once.1 [[itemNoGenres], [itemNoGenres]] _ (by decide) (by rfl)

/-- C10: appending an empty batch creates the file containing exactly
the header when the file did not exist, and leaves an existing file's
contents unchanged. -/
theorem C10_empty_batch :
    save_to_csv none [] = [CsvRow.header] ∧
    ∀ c : List CsvRow, save_to_csv (some c) [] = c := by
  refine ⟨rfl, fun c => ?_⟩
  simp [save_to_csv]

/-! ## Duplicate genre ids (C2) -/

/-- C2 fails on the code: an item carrying `genre_ids = [1, 1, 2]` gets
`movie.genres.append` executed once per occurrence, so the pair (7, 1)
is staged twice; the commit then violates the association table's
composite primary key and the whole batch fails — no association rows
(and no rows at all) are committed, instead of the claimed exact
two-row association set. -/
theorem C2_dup_genre_pair_fails :
    (stageBatch DB.empty [itemDupGenres]).newAssocs = [(7, 1), (7, 1), (7, 2)] ∧
    save_batch_to_db DB.empty [itemDupGenres] = Except.error DBError.uniqueViolation :=
  ⟨rfl, rfl⟩

/-! ## Upsert Engine staging lemmas -/

theorem addGenre_inv (mid : Int) (st : Stage) (g : Int) :
    (addGenre mid st g).db = st.db ∧ (addGenre mid st g).newMovies = st.newMovies := by
  unfold addGenre
  split <;> exact ⟨rfl, rfl⟩

theorem foldl_addGenre_inv (mid : Int) (gs : List Int) :
    ∀ st : Stage, ((gs.foldl (addGenre mid) st).db = st.db ∧
      (gs.foldl (addGenre mid) st).newMovies = st.newMovies) := by
  induction gs with
  | nil => intro st; exact ⟨rfl, rfl⟩
  | cons g t ih =>
    intro st
    have h1 := addGenre_inv mid st g
    have h2 := ih (addGenre mid st g)
    exact ⟨h2.1.trans h1.1, h2.2.trans h1.2⟩

theorem processItem_seen (st : Stage) (m : CatalogItem) (h : movieSeen st m.id) :
    processItem st m = st := by
  unfold processItem
  exact if_pos h

theorem processItem_db (st : Stage) (m : CatalogItem) :
    (processItem st m).db = st.db := by
  unfold processItem
  split
  · rfl
  · exact (foldl_addGenre_inv m.id m.genre_ids st).1

theorem processItem_newMovies_not_seen (st : Stage) (m : CatalogItem)
    (h : ¬ movieSeen st m.id) :
    (processItem st m).newMovies = st.newMovies ++ [buildMovie m] := by
  unfold processItem
  rw [if_neg h]
  show (m.genre_ids.foldl (addGenre m.id) st).newMovies ++ [buildMovie m] =
    st.newMovies ++ [buildMovie m]
  rw [(foldl_addGenre_inv m.id m.genre_ids st).2]

theorem movieSeen_mono (st : Stage) (m : CatalogItem) (i : Int)
    (h : movieSeen st i) : movieSeen (processItem st m) i := by
  by_cases hs : movieSeen st m.id
  · rwa [processItem_seen st m hs]
  · unfold movieSeen at h ⊢
    rw [processItem_db]
    rcases h with h | h
    · exact Or.inl h
    · rw [processItem_newMovies_not_seen st m hs]
      exact Or.inr (by simp [h])

theorem processItem_self_seen (st : Stage) (m : CatalogItem) :
    movieSeen (processItem st m) m.id := by
  by_cases hs : movieSeen st m.id
  · rwa [processItem_seen st m hs]
  · unfold movieSeen
    rw [processItem_newMovies_not_seen st m hs]
    exact Or.inr (by simp [buildMovie])

theorem foldl_processItem_seen_mono (ms : List CatalogItem) :
    ∀ (st : Stage) (i : Int), movieSeen st i →
      movieSeen (ms.foldl processItem st) i := by
  induction ms with
  | nil => intro st i h; exact h
  | cons a t ih => intro st i h; exact ih (processItem st a) i (movieSeen_mono st a i h)

theorem foldl_processItem_all_seen (ms : List CatalogItem) :
    ∀ (st : Stage) (m : CatalogItem), m ∈ ms →
      movieSeen (ms.foldl processItem st) m.id := by
  induction ms with
  | nil => intro st m hm; cases hm
  | cons a t ih =>
    intro st m hm
    rcases List.mem_cons.mp hm with rfl | hm
    · exact foldl_processItem_seen_mono t (processItem st m) m.id
        (processItem_self_seen st m)
    · exact ih (processItem st a) m hm

theorem foldl_processItem_db (ms : List CatalogItem) :
    ∀ st : Stage, (ms.foldl processItem st).db = st.db := by
  induction ms with
  | nil => intro st; rfl
  | cons a t ih => intro st; exact (ih (processItem st a)).trans (processItem_db st a)

theorem stageBatch_db (db : DB) (batch : List CatalogItem) :
    (stageBatch db batch).db = db :=
  foldl_processItem_db batch _

theorem foldl_processItem_all_skip (ms : List CatalogItem) :
    ∀ st : Stage, (∀ m ∈ ms, movieSeen st m.id) → ms.foldl processItem st = st := by
  induction ms with
  | nil => intro st _; rfl
  | cons a t ih =>
    intro st hall
    have ha : processItem st a = st := processItem_seen st a (hall a (by simp))
    rw [List.foldl_cons, ha]
    exact ih st (fun m hm => hall m (by simp [hm]))

/-! ## Commit lemmas -/

theorem insertRows_ok {ρ κ : Type} (key : ρ → κ) [DecidableEq κ] :
    ∀ (rows tbl out : List ρ), insertRows key tbl rows = Except.ok out →
      out = tbl ++ rows := by
  intro rows
  induction rows with
  | nil =>
    intro tbl out h
    injection h with h
    rw [← h, List.append_nil]
  | cons r rs ih =>
    intro tbl out h
    unfold insertRows at h
    split at h
    · cases h
    · have := ih (tbl ++ [r]) out h
      rw [this, List.append_assoc]
      rfl

theorem insertRows_nodup {ρ κ : Type} (key : ρ → κ) [DecidableEq κ] :
    ∀ (rows tbl out : List ρ), (tbl.map key).Nodup →
      insertRows key tbl rows = Except.ok out → (out.map key).Nodup := by
  intro rows
  induction rows with
  | nil =>
    intro tbl out hnd h
    injection h with h
    rwa [← h]
  | cons r rs ih =>
    intro tbl out hnd h
    unfold insertRows at h
    split at h
    · cases h
    · refine ih (tbl ++ [r]) out ?_ h
      rename_i hni
      simp only [List.map_append, List.map_cons, List.map_nil]
      simp [List.nodup_append, hnd, hni]

theorem commitStage_ok (db : DB) (st : Stage) (db' : DB)
    (h : commitStage db st = Except.ok db') :
    db'.movies = db.movies ++ st.newMovies ∧
    db'.genres = db.genres ++ st.newGenres ∧
    db'.assocs = db.assocs ++ st.newAssocs := by
  unfold commitStage at h
  cases hms : insertRows (fun r => r.id) db.movies st.newMovies with
  | error e => simp only [hms] at h; exact Except.noConfusion h
  | ok ms =>
    simp only [hms] at h
    cases hgs : insertRows (fun g => g.genre_id) db.genres st.newGenres with
    | error e => simp only [hgs] at h; exact Except.noConfusion h
    | ok gs =>
      simp only [hgs] at h
      cases has : insertRows (fun p => p) db.assocs st.newAssocs with
      | error e => simp only [has] at h; exact Except.noConfusion h
      | ok asr =>
        simp only [has] at h
        injection h with h
        rw [← h]
        exact ⟨insertRows_ok _ _ _ _ hms, insertRows_ok _ _ _ _ hgs,
          insertRows_ok _ _ _ _ has⟩

theorem save_ok_components (db : DB) (batch : List CatalogItem) (db' : DB)
    (h : save_batch_to_db db batch = Except.ok db') :
    db'.movies = db.movies ++ (stageBatch db batch).newMovies ∧
    db'.genres = db.genres ++ (stageBatch db batch).newGenres ∧
    db'.assocs = db.assocs ++ (stageBatch db batch).newAssocs :=
  commitStage_ok db (stageBatch db batch) db' h

theorem stageBatch_all_seen (db : DB) (batch : List CatalogItem)
    (m : CatalogItem) (hm : m ∈ batch) : movieSeen (stageBatch db batch) m.id :=
  foldl_processItem_all_seen batch _ m hm

/-- C3: persisting a batch a second time after a successful run stages
nothing — every item's identifier is already committed, so each item is
skipped entirely — and the commit returns the store unchanged. -/
theorem C3_idempotent (db : DB) (batch : List CatalogItem) (db' : DB)
    (h : save_batch_to_db db batch = Except.ok db') :
    (stageBatch db' batch).newMovies = [] ∧
    (stageBatch db' batch).newGenres = [] ∧
    (stageBatch db' batch).newAssocs = [] ∧
    save_batch_to_db db' batch = Except.ok db' := by
  have hcomp := save_ok_components db batch db' h
  have hall : ∀ m ∈ batch, m.id ∈ db'.movies.map (fun r => r.id) := by
    intro m hm
    have hseen := stageBatch_all_seen db batch m hm
    unfold movieSeen at hseen
    rw [stageBatch_db] at hseen
    rw [hcomp.1, List.map_append]
    exact List.mem_append.mpr hseen
  have hskip : stageBatch db' batch =
      { db := db', newMovies := [], newGenres := [], newAssocs := []
        cache := db'.genres.map (fun g => g.genre_id) } := by
    unfold stageBatch
    apply foldl_processItem_all_skip
    intro m hm
    exact Or.inl (hall m hm)
  refine ⟨by rw [hskip], by rw [hskip], by rw [hskip], ?_⟩
  unfold save_batch_to_db
  rw [hskip]
  rfl

/-- Witness for C3: re-persisting a one-item batch against the store
produced by its first successful run returns the store unchanged. -/
theorem C3_idempotent_witness :
    save_batch_to_db ⟨[buildMovie itemNoGenres], [], []⟩ [itemNoGenres] =
      Except.ok ⟨[buildMovie itemNoGenres], [], []⟩ :=
  (C3_idempotent DB.empty [itemNoGenres] ⟨[buildMovie itemNoGenres], [], []⟩ rfl).2.2.2

theorem foldl_processItem_staged_inv (ms : List CatalogItem) :
    ∀ st : Stage,
      (st.newMovies.map (fun r => r.id)).Nodup →
      (∀ i ∈ st.newMovies.map (fun r => r.id), i ∉ st.db.movies.map (fun r => r.id)) →
      ((ms.foldl processItem st).newMovies.map (fun r => r.id)).Nodup ∧
      (∀ i ∈ (ms.foldl processItem st).newMovies.map (fun r => r.id),
        i ∉ st.db.movies.map (fun r => r.id)) := by
  induction ms with
  | nil => intro st h1 h2; exact ⟨h1, h2⟩
  | cons a t ih =>
    intro st h1 h2
    rw [List.foldl_cons]
    by_cases hs : movieSeen st a.id
    · rw [processItem_seen st a hs]
      exact ih st h1 h2
    · have hnm := processItem_newMovies_not_seen st a hs
      have hdb := processItem_db st a
      unfold movieSeen at hs
      push_neg at hs
      have h1' : ((processItem st a).newMovies.map (fun r => r.id)).Nodup := by
        rw [hnm, List.map_append]
        simp only [List.map_cons, List.map_nil]
        rw [List.nodup_append]
        refine ⟨h1, List.nodup_singleton _, ?_⟩
        intro i hi hval
        rcases List.mem_singleton.mp hval with rfl
        exact hs.2 (by simpa [buildMovie] using hi)
      have h2' : ∀ i ∈ (processItem st a).newMovies.map (fun r => r.id),
          i ∉ (processItem st a).db.movies.map (fun r => r.id) := by
        rw [hnm, hdb, List.map_append]
        intro i hi
        rcases List.mem_append.mp hi with hi | hi
        · exact h2 i hi
        · simp only [List.map_cons, List.map_nil, List.mem_singleton] at hi
          rw [hi]
          simpa [buildMovie] using hs.1
      have := ih (processItem st a) h1' h2'
      rw [hdb] at this
      exact this

theorem commitStage_movies_nodup (db : DB) (st : Stage) (db' : DB)
    (hnd : (db.movies.map (fun r => r.id)).Nodup)
    (h : commitStage db st = Except.ok db') :
    (db'.movies.map (fun r => r.id)).Nodup := by
  unfold commitStage at h
  cases hms : insertRows (fun r => r.id) db.movies st.newMovies with
  | error e => simp only [hms] at h; exact Except.noConfusion h
  | ok ms =>
    simp only [hms] at h
    cases hgs : insertRows (fun g => g.genre_id) db.genres st.newGenres with
    | error e => simp only [hgs] at h; exact Except.noConfusion h
    | ok gs =>
      simp only [hgs] at h
      cases has : insertRows (fun p => p) db.assocs st.newAssocs with
      | error e => simp only [has] at h; exact Except.noConfusion h
      | ok asr =>
        simp only [has] at h
        injection h with h
        rw [← h]
        exact insertRows_nodup _ _ _ _ hnd hms

/-- C9: an intra-batch duplicate identifier is skipped exactly like a
pre-existing record (the staged state is untouched), the staged primary
records carry pairwise distinct identifiers all absent from the store,
and a successful commit preserves primary-key uniqueness. -/
theorem C9_intra_batch_dups :
    (∀ (st : Stage) (m : CatalogItem), movieSeen st m.id → processItem st m = st) ∧
    (∀ (db : DB) (batch : List CatalogItem),
      ((stageBatch db batch).newMovies.map (fun r => r.id)).Nodup ∧
      ∀ i ∈ (stageBatch db batch).newMovies.map (fun r => r.id), i ∉ dbMovieIds db) ∧
    (∀ (db : DB) (batch : List CatalogItem) (db' : DB), (dbMovieIds db).Nodup →
      save_batch_to_db db batch = Except.ok db' → (dbMovieIds db').Nodup) := by
  refine ⟨processItem_seen, fun db batch => ?_, fun db batch db' hnd h => ?_⟩
  · have := foldl_processItem_staged_inv batch
      { db := db, newMovies := [], newGenres := [], newAssocs := []
        cache := db.genres.map (fun g => g.genre_id) }
      (by simp) (by simp)
    exact ⟨this.1, this.2⟩
  · exact commitStage_movies_nodup db (stageBatch db batch) db' hnd h

/-- Witness for C9: a batch repeating one item commits a single primary
record with a duplicate-free id column. -/
theorem C9_intra_batch_dups_witness :
    (dbMovieIds (DB.mk [buildMovie itemNoGenres] [] [])).Nodup :=
  C9_intra_batch_dups.2.2 DB.empty [itemNoGenres, itemNoGenres]
    (DB.mk [buildMovie itemNoGenres] [] []) (by simp [dbMovieIds, DB.empty]) rfl

/-- C4: a successful `save_batch_to_db` commits every staged primary,
category and association row in its single end-of-call transaction;
when the commit fails, the store is unchanged, the failure is surfaced
(the uncaught exception in the run result), and the run attempts no
further batch. -/
theorem C4_all_or_nothing :
    (∀ (db : DB) (batch : List CatalogItem) (db' : DB),
      save_batch_to_db db batch = Except.ok db' →
      db'.movies = db.movies ++ (stageBatch db batch).newMovies ∧
      db'.genres = db.genres ++ (stageBatch db batch).newGenres ∧
      db'.assocs = db.assocs ++ (stageBatch db batch).newAssocs) ∧
    (∀ (net : Oracle) (fuel page : Nat) (s : RunState) (e : DBError),
      page ≤ 100 →
      (fetch_movies_batch net page 5).2 ≠ [] →
      save_batch_to_db s.db (fetch_movies_batch net page 5).2 = Except.error e →
      mainLoop net (fuel + 1) page s =
        ((fetch_movies_batch net page 5).1,
          ⟨s.db, some (save_to_csv s.csv (fetch_movies_batch net page 5).2)⟩, some e)) := by
  refine ⟨fun db batch db' h => save_ok_components db batch db' h, ?_⟩
  intro net fuel page s e hpage hne hsave
  simp [mainLoop, hpage, hne, hsave]

/-- Witness for C4 on the duplicate-genre batch: the commit fails, the
run surfaces the error, keeps the store untouched and stops. -/
theorem C4_all_or_nothing_witness :
    mainLoop netDupItem 1 1 ⟨DB.empty, none⟩ =
      ((fetch_movies_batch netDupItem 1 5).1,
        ⟨DB.empty, some (save_to_csv none (fetch_movies_batch netDupItem 1 5).2)⟩,
        some DBError.uniqueViolation) :=
  C4_all_or_nothing.2 netDupItem 0 1 ⟨DB.empty, none⟩ DBError.uniqueViolation
    (by decide) (by decide) rfl

/-! ## Fetcher lemmas -/

theorem fetchPage_empty_of_ok_nil (net : Oracle) (p : Nat)
    (h : net p 0 = Attempt.ok []) :
    fetchPage net p = ([Ev.attempt p 0], PageOutcome.empty) := by
  simp [fetchPage, fetchPageFrom, h]

theorem fetchPage_items_of_ok_cons (net : Oracle) (p : Nat) (a : CatalogItem)
    (as : List CatalogItem) (h : net p 0 = Attempt.ok (a :: as)) :
    fetchPage net p = ([Ev.attempt p 0, Ev.sleep 4], PageOutcome.items (a :: as)) := by
  simp [fetchPage, fetchPageFrom, h]

theorem fetchBatchAux_step_empty (net : Oracle) (n : Nat) (acc : List CatalogItem)
    (page : Nat) (t : List Ev) (h : fetchPage net page = (t, PageOutcome.empty)) :
    fetchBatchAux net (n + 1) acc page = (t, acc) := by
  simp [fetchBatchAux, h]

theorem fetchBatchAux_step_items (net : Oracle) (n : Nat) (acc : List CatalogItem)
    (page : Nat) (t : List Ev) (l : List CatalogItem)
    (h : fetchPage net page = (t, PageOutcome.items l)) :
    fetchBatchAux net (n + 1) acc page =
      (t ++ (fetchBatchAux net n (acc ++ l) (page + 1)).1,
        (fetchBatchAux net n (acc ++ l) (page + 1)).2) := by
  simp [fetchBatchAux, h]

theorem fetchBatch_exact (net : Oracle) (items : Nat → List CatalogItem) (k : Nat)
    (hk : net k 0 = Attempt.ok []) :
    ∀ (n start : Nat) (acc : List CatalogItem), start ≤ k → k < start + n →
      (∀ p, start ≤ p → p < k → net p 0 = Attempt.ok (items p) ∧ items p ≠ []) →
      (fetchBatchAux net n acc start).2 =
        acc ++ ((List.range' start (k - start)).map items).flatten := by
  intro n
  induction n with
  | zero => intro start acc h1 h2 _; omega
  | succ n ih =>
    intro start acc h1 h2 hok
    rcases eq_or_lt_of_le h1 with rfl | hlt
    · rw [fetchBatchAux_step_empty net n acc start _
        (fetchPage_empty_of_ok_nil net start hk)]
      simp
    · obtain ⟨hnet, hne⟩ := hok start le_rfl hlt
      cases hcons : items start with
      | nil => exact absurd hcons hne
      | cons a as =>
        rw [hcons] at hnet
        rw [fetchBatchAux_step_items net n acc start _ _
          (fetchPage_items_of_ok_cons net start a as hnet)]
        rw [ih (start + 1) (acc ++ (a :: as)) (by omega) (by omega)
          (fun p hp1 hp2 => hok p (by omega) hp2)]
        rw [← hcons]
        have hsplit : k - start = (k - (start + 1)) + 1 := by omega
        rw [hsplit, List.range'_succ]
        simp [List.append_assoc]

/-- C5: when pages `start .. k-1` succeed with results and page `k`
(inside the batch window) returns empty results, the Collector returns
exactly the concatenation of the earlier pages' items in fetch order. -/
theorem C5_collector_exact (net : Oracle) (start size k : Nat)
    (items : Nat → List CatalogItem) (hks : start ≤ k) (hke : k < start + size)
    (hok : ∀ p, start ≤ p → p < k → net p 0 = Attempt.ok (items p) ∧ items p ≠ [])
    (hempty : net k 0 = Attempt.ok []) :
    (fetch_movies_batch net start size).2 =
      ((List.range' start (k - start)).map items).flatten := by
  have := fetchBatch_exact net items k hempty size start [] hks hke hok
  simpa [fetch_movies_batch] using this

/-- Witness for C5: page 1 holds one item, page 2 is empty; a batch of
five pages starting at page 1 collects exactly page 1's items. -/
theorem C5_collector_exact_witness :
    (fetch_movies_batch netOneItem 1 5).2 =
      ((List.range' 1 (2 - 1)).map
        (fun p => if p = 1 then [itemNoGenres] else [])).flatten :=
  C5_collector_exact netOneItem 1 5 2 (fun p => if p = 1 then [itemNoGenres] else [])
    (by decide) (by decide)
    (by
      intro p h1 h2
      have hp : p = 1 := by omega
      subst hp
      exact ⟨rfl, by decide⟩)
    rfl

/-- C6: a page failing on all three attempts produces the bounded
retry trace — three attempts with the 2-second backoff sleep after
each failure — is skipped without surfacing any error (the fetch
returns normally), contributes zero items, and collection continues
with the next page of the batch. -/
theorem C6_retry_containment (net : Oracle) (p : Nat)
    (h0 : net p 0 = Attempt.fail) (h1 : net p 1 = Attempt.fail)
    (h2 : net p 2 = Attempt.fail) :
    fetchPage net p = ([Ev.attempt p 0, Ev.sleep 20, Ev.attempt p 1, Ev.sleep 20,
      Ev.attempt p 2, Ev.sleep 20], PageOutcome.skipped) ∧
    (∀ (n : Nat) (acc : List CatalogItem),
      fetchBatchAux net (n + 1) acc p =
        ((fetchPage net p).1 ++ (fetchBatchAux net n acc (p + 1)).1,
          (fetchBatchAux net n acc (p + 1)).2)) := by
  have hp : fetchPage net p = ([Ev.attempt p 0, Ev.sleep 20, Ev.attempt p 1,
      Ev.sleep 20, Ev.attempt p 2, Ev.sleep 20], PageOutcome.skipped) := by
    simp [fetchPage, fetchPageFrom, h0, h1, h2]
  refine ⟨hp, fun n acc => ?_⟩
  simp [fetchBatchAux, hp]

/-- Witness for C6 on the always-failing oracle at page 1. -/
theorem C6_retry_containment_witness :
    fetchPage netAllFail 1 = ([Ev.attempt 1 0, Ev.sleep 20, Ev.attempt 1 1,
      Ev.sleep 20, Ev.attempt 1 2, Ev.sleep 20], PageOutcome.skipped) ∧
    fetchBatchAux netAllFail 1 [] 1 =
      ((fetchPage netAllFail 1).1 ++ (fetchBatchAux netAllFail 0 [] 2).1,
        (fetchBatchAux netAllFail 0 [] 2).2) :=
  ⟨(C6_retry_containment netAllFail 1 rfl rfl rfl).1,
    (C6_retry_containment netAllFail 1 rfl rfl rfl).2 0 []⟩

/-! ## End-of-data propagation (C1) -/

theorem fetchBatch_trace_bound (net : Oracle) (items : Nat → List CatalogItem)
    (k : Nat) (hk : net k 0 = Attempt.ok []) :
    ∀ (n start : Nat) (acc : List CatalogItem), start ≤ k →
      (∀ p, start ≤ p → p < k → net p 0 = Attempt.ok (items p) ∧ items p ≠ []) →
      ∀ q i, Ev.attempt q i ∈ (fetchBatchAux net n acc start).1 → q ≤ k := by
  intro n
  induction n with
  | zero => intro start acc h1 hok q i hmem; simp [fetchBatchAux] at hmem
  | succ n ih =>
    intro start acc h1 hok q i hmem
    rcases eq_or_lt_of_le h1 with rfl | hlt
    · rw [fetchBatchAux_step_empty net n acc start _
        (fetchPage_empty_of_ok_nil net start hk)] at hmem
      simp only [List.mem_singleton, Ev.attempt.injEq] at hmem
      omega
    · obtain ⟨hnet, hne⟩ := hok start le_rfl hlt
      cases hcons : items start with
      | nil => exact absurd hcons hne
      | cons a as =>
        rw [hcons] at hnet
        rw [fetchBatchAux_step_items net n acc start _ _
          (fetchPage_items_of_ok_cons net start a as hnet)] at hmem
        rcases List.mem_append.mp hmem with hm | hm
        · simp only [List.mem_cons, List.mem_singleton, Ev.attempt.injEq] at hm
          rcases hm with ⟨rfl, _⟩ | hm
          · omega
          · exact absurd hm (by simp)
        · exact ih (start + 1) (acc ++ (a :: as)) (by omega)
            (fun p hp1 hp2 => hok p (by omega) hp2) q i hm

/-- C1 as stated is refuted by this run: page 1 returns one item, page
2 returns empty results, yet the trace of the full run contains an HTTP
attempt on page 6 — the Driver, seeing a non-empty batch, advanced the
cursor and attempted a further batch, fetching a page after the
end-of-data page. -/
theorem C1_counterexample :
    (mainRun netOneItem).1 =
      [Ev.attempt 1 0, Ev.sleep 4, Ev.attempt 2 0, Ev.attempt 6 0] ∧
    Ev.attempt 6 0 ∈ (mainRun netOneItem).1 := by
  exact ⟨rfl, by decide⟩

/-- C1 amended: when a page returns definitive end-of-data, the
Collector fetches no page beyond it within that batch; the Driver stops
without fetching, mirroring or persisting anything further exactly when
the collected batch is empty — when the terminating batch still carried
items from earlier pages, the Driver goes on to attempt one more batch
before seeing an empty one. -/
theorem C1_amended (net : Oracle) (start size k : Nat)
    (items : Nat → List CatalogItem) (hks : start ≤ k) (hke : k < start + size)
    (hok : ∀ p, start ≤ p → p < k → net p 0 = Attempt.ok (items p) ∧ items p ≠ [])
    (hempty : net k 0 = Attempt.ok []) :
    (∀ q i, Ev.attempt q i ∈ (fetch_movies_batch net start size).1 → q ≤ k) ∧
    (∀ (s : RunState) (page fuel : Nat), page ≤ 100 →
      (fetch_movies_batch net page 5).2 = [] →
      mainLoop net (fuel + 1) page s = ((fetch_movies_batch net page 5).1, s, none)) := by
  constructor
  · intro q i hmem
    exact fetchBatch_trace_bound net items k hempty size start [] hks hok q i hmem
  · intro s page fuel hpage hb
    simp [mainLoop, hpage, hb]

/-- Witness for C1 amended: on the one-item oracle the Driver, invoked
at cursor 6 where the batch comes back empty, stops at once. -/
theorem C1_amended_witness :
    mainLoop netOneItem 1 6 ⟨DB.empty, none⟩ =
      ((fetch_movies_batch netOneItem 6 5).1, ⟨DB.empty, none⟩, none) :=
  (C1_amended netOneItem 1 5 2 (fun p => if p = 1 then [itemNoGenres] else [])
    (by decide) (by decide)
    (by
      intro p h1 h2
      have hp : p = 1 := by omega
      subst hp
      exact ⟨rfl, by decide⟩)
    rfl).2 ⟨DB.empty, none⟩ 6 0 (by decide) (by decide)
